import Mathlib

/-!
Shallow embedding of the manuscript-formatter core
(src/document_processor.py and src/formatter.py).

Python strings are modelled as Lean `String` / `List Char`; the specific
regular expressions used by the source are hand-compiled to total scanners
over `List Char` (each pattern is simple enough that greedy matching with
the one needed backtracking case is exact); Python `int(...)` parsing and
`str.strip` / `str.replace` are modelled explicitly.  Machine floats in the
source only carry inch widths; they are modelled as exact rationals.
-/

namespace ManuscriptFormatter

/-! ## Character and string helpers (Python semantics) -/

/-- Python whitespace characters recognised by `str.strip` and the regex
class backslash-s (ASCII range). -/
def isSpaceCh (c : Char) : Bool :=
  c = ' ' || c = '\t' || c = '\n' || c = '\x0d' || c = '\x0b' || c = '\x0c'

/-- ASCII decimal digit, the regex class backslash-d on ASCII input. -/
def isDigitCh (c : Char) : Bool := '0' ≤ c && c ≤ '9'

/-- ASCII uppercase letter. -/
def isUpperCh (c : Char) : Bool := 'A' ≤ c && c ≤ 'Z'

/-- ASCII letter of either case: what the class `[A-Z]` matches once the
source compiles its citation patterns with `re.IGNORECASE`. -/
def isLetterCh (c : Char) : Bool := isUpperCh c || ('a' ≤ c && c ≤ 'z')

/-- Case-folding for the IGNORECASE comparisons of the source. -/
def lc (c : Char) : Char := c.toLower

/-- Python `str.lower` (ASCII model). -/
def lowerStr (s : String) : String := String.mk (s.data.map lc)

/-- Python `str.strip()`: drop leading and trailing whitespace. -/
def pstripL (cs : List Char) : List Char := cs.dropWhile isSpaceCh

/-- Python `str.strip()` on a character list. -/
def pstripChars (cs : List Char) : List Char :=
  (pstripL cs).reverse.dropWhile isSpaceCh |>.reverse

/-- Python `str.strip()`. -/
def pstrip (s : String) : String := String.mk (pstripChars s.data)

/-- Python substring containment `needle in hay` (empty needle matches). -/
def containsSub (needle : List Char) : List Char → Bool
  | [] => needle.isEmpty
  | c :: cs => needle.isPrefixOf (c :: cs) || containsSub needle cs

/-- Python `needle in hay` on strings. -/
def strContains (hay needle : String) : Bool :=
  needle.data.isEmpty || containsSub needle.data hay.data

/-- Python `str.rstrip('ABCDEFGHIJKLMNOPQRSTUVWXYZ')`: remove trailing
ASCII uppercase letters (and only uppercase ones). -/
def rstripUpper (s : String) : String :=
  String.mk (s.data.reverse.dropWhile isUpperCh).reverse

/-- Python `' '.join(parts)`. -/
def joinSpace (parts : List String) : String := String.intercalate " " parts

/-- Python `int(s)` for the string arguments reachable in this code base:
optional surrounding whitespace, an optional sign, then a nonempty run of
ASCII digits.  Returns `none` where CPython raises `ValueError`.
(The digit-group underscores CPython also accepts cannot be produced by
any citation pattern of the source and are not modelled.) -/
def parseIntPy? (s : String) : Option Int :=
  let cs := pstripChars s.data
  let core : Option (Bool × List Char) :=
    match cs with
    | '-' :: rest => some (true, rest)
    | '+' :: rest => some (false, rest)
    | rest => some (false, rest)
  match core with
  | some (neg, ds) =>
    if ds ≠ [] && ds.all isDigitCh then
      let n : Nat := ds.foldl (fun acc c => acc * 10 + (c.toNat - '0'.toNat)) 0
      some (if neg then -(n : Int) else (n : Int))
    else none
  | none => none

/-! ## Hand-compiled scanners for the citation regular expressions

The source (src/document_processor.py, `detect_citations`) applies six
IGNORECASE patterns with `re.finditer`.  Each scanner takes the remaining
input and, on success, returns the captured group together with the suffix
left after the whole match.  All six patterns consume at least one
character on success, and none of them needs regex backtracking to agree
with greedy matching (verified case by case: every optional or starred
piece is followed by a piece whose first character cannot overlap it). -/

/-- One optional literal `*` (the regex piece star-question). -/
def dropOptStar : List Char → List Char
  | '*' :: cs => cs
  | cs => cs

/-- Two optional `*` characters in sequence. -/
def dropOptStars (cs : List Char) : List Char := dropOptStar (dropOptStar cs)

/-- One optional literal `.`. -/
def dropOptDot : List Char → List Char
  | '.' :: cs => cs
  | cs => cs

/-- Case-insensitive literal match; returns the rest on success. -/
def matchLitCI : List Char → List Char → Option (List Char)
  | [], cs => some cs
  | _, [] => none
  | l :: ls, c :: cs => if lc c = lc l then matchLitCI ls cs else none

/-- Case-sensitive literal match; returns the rest on success. -/
def matchLit : List Char → List Char → Option (List Char)
  | [], cs => some cs
  | _, [] => none
  | l :: ls, c :: cs => if c = l then matchLit ls cs else none

/-- Regex piece backslash-s-plus: at least one whitespace character. -/
def spaces1 : List Char → Option (List Char)
  | c :: cs => if isSpaceCh c then some (cs.dropWhile isSpaceCh) else none
  | [] => none

/-- Regex piece backslash-s-star. -/
def spaces0 (cs : List Char) : List Char := cs.dropWhile isSpaceCh

/-- Regex piece backslash-d-plus: returns (digits, rest). -/
def digits1 (cs : List Char) : Option (List Char × List Char) :=
  let ds := cs.takeWhile isDigitCh
  if ds.isEmpty then none else some (ds, cs.drop ds.length)

/-- Regex piece `[A-Z]?` under IGNORECASE: one optional ASCII letter. -/
def optLetter : List Char → (List Char × List Char)
  | c :: cs => if isLetterCh c then ([c], cs) else ([], c :: cs)
  | [] => ([], [])

/-- A scanner result: the captured group and the input left after the
whole match. -/
abbrev ScanRes := Option (List Char × List Char)

/-- Pattern `(Fig. N)` with optional bold markers, whitespace and period:
the raw source pattern is an open parenthesis, backslash-s-star, two
optional stars, `Fig`, optional period, backslash-s-plus, the group
(digits with one optional letter), backslash-s-star, close parenthesis. -/
def tryFigP1 : List Char → ScanRes
  | '(' :: r0 =>
    let r1 := spaces0 r0
    let r2 := dropOptStars r1
    match matchLitCI "fig".data r2 with
    | none => none
    | some r3 =>
      match spaces1 (dropOptDot r3) with
      | none => none
      | some r5 =>
        match digits1 r5 with
        | none => none
        | some (ds, r6) =>
          let (lt, r7) := optLetter r6
          match spaces0 r7 with
          | ')' :: r9 => some (ds ++ lt, r9)
          | _ => none
  | _ => none

/-- Pattern bare `Figure N` with optional bold markers on both sides. -/
def tryFigP2 (cs : List Char) : ScanRes :=
  let r1 := dropOptStars cs
  match matchLitCI "figure".data r1 with
  | none => none
  | some r2 =>
    match spaces1 r2 with
    | none => none
    | some r3 =>
      match digits1 r3 with
      | none => none
      | some (ds, r4) =>
        let (lt, r5) := optLetter r4
        some (ds ++ lt, dropOptStars r5)

/-- Pattern `(Figure N)` with optional bold markers and whitespace. -/
def tryFigP3 : List Char → ScanRes
  | '(' :: r0 =>
    let r1 := spaces0 r0
    let r2 := dropOptStars r1
    match matchLitCI "figure".data r2 with
    | none => none
    | some r3 =>
      match spaces1 r3 with
      | none => none
      | some r5 =>
        match digits1 r5 with
        | none => none
        | some (ds, r6) =>
          let (lt, r7) := optLetter r6
          match spaces0 r7 with
          | ')' :: r9 => some (ds ++ lt, r9)
          | _ => none
  | _ => none

/-- Pattern `(Tab. N)`: like `tryFigP1` but with `Tab` and no sub-panel
letter in the group. -/
def tryTabP1 : List Char → ScanRes
  | '(' :: r0 =>
    let r1 := spaces0 r0
    let r2 := dropOptStars r1
    match matchLitCI "tab".data r2 with
    | none => none
    | some r3 =>
      match spaces1 (dropOptDot r3) with
      | none => none
      | some r5 =>
        match digits1 r5 with
        | none => none
        | some (ds, r6) =>
          match spaces0 r6 with
          | ')' :: r9 => some (ds, r9)
          | _ => none
  | _ => none

/-- Pattern bare `Table N` with optional bold markers. -/
def tryTabP2 (cs : List Char) : ScanRes :=
  let r1 := dropOptStars cs
  match matchLitCI "table".data r1 with
  | none => none
  | some r2 =>
    match spaces1 r2 with
    | none => none
    | some r3 =>
      match digits1 r3 with
      | none => none
      | some (ds, r4) => some (ds, dropOptStars r4)

/-- Pattern `(Table N)`. -/
def tryTabP3 : List Char → ScanRes
  | '(' :: r0 =>
    let r1 := spaces0 r0
    let r2 := dropOptStars r1
    match matchLitCI "table".data r2 with
    | none => none
    | some r3 =>
      match spaces1 r3 with
      | none => none
      | some r5 =>
        match digits1 r5 with
        | none => none
        | some (ds, r6) =>
          match spaces0 r6 with
          | ')' :: r9 => some (ds, r9)
          | _ => none
  | _ => none

/-- One step list of `re.finditer`: try the scanner at every position from
left to right; on a match, record (whole matched text, group) and resume
after the match.  `fuel` bounds the number of steps; every scanner above
consumes at least one character per match, so fuel equal to the input
length is always sufficient. -/
def finditerGo (tm : List Char → ScanRes) : Nat → List Char → List (List Char × List Char)
  | 0, _ => []
  | _ + 1, [] => []
  | fuel + 1, c :: cs =>
    match tm (c :: cs) with
    | some (g, rest) =>
      ((c :: cs).take ((c :: cs).length - rest.length), g) :: finditerGo tm fuel rest
    | none => finditerGo tm fuel cs

/-- Python `re.finditer(pattern, text)` restricted to the scanners above:
yields (group(0), group(1)) pairs for every non-overlapping match. -/
def finditer (tm : List Char → ScanRes) (s : String) : List (String × String) :=
  (finditerGo tm s.data.length s.data).map fun wg => (String.mk wg.1, String.mk wg.2)

/-! ## Citation detection (DocumentProcessor.detect_citations) -/

/-- A body paragraph record as built by `_extract_body`: text, style name
and heading flag. -/
structure BodyParagraph where
  text : String
  style : String
  is_heading : Bool
deriving DecidableEq, Repr

/-- A citation record as built by `detect_citations`.  The source stores
the kind in the string field `type` (value `figure` or `table`). -/
structure Citation where
  type : String
  number : String
  position : Nat
  context : String
  match_text : String
deriving DecidableEq, Repr

/-- The de-duplication key used at the end of `detect_citations`. -/
def citKey (c : Citation) : String × String × Nat := (c.type, c.number, c.position)

/-- The three figure patterns, in source order. -/
def figurePatterns : List (List Char → ScanRes) := [tryFigP1, tryFigP2, tryFigP3]

/-- The three table patterns, in source order. -/
def tablePatterns : List (List Char → ScanRes) := [tryTabP1, tryTabP2, tryTabP3]

/-- All raw citations found in one body paragraph, in source order: every
figure pattern over the whole text, then every table pattern. -/
def paraCitations (idx : Nat) (p : BodyParagraph) : List Citation :=
  (figurePatterns.flatMap fun pat =>
    (finditer pat p.text).map fun wg =>
      { type := "figure", number := wg.2, position := idx,
        context := p.text, match_text := wg.1 })
  ++ (tablePatterns.flatMap fun pat =>
    (finditer pat p.text).map fun wg =>
      { type := "table", number := wg.2, position := idx,
        context := p.text, match_text := wg.1 })

/-- The enumeration loop of `detect_citations`: paragraph index advances
with the walk, every match in paragraph `i` gets position `i`. -/
def citationsGo : Nat → List BodyParagraph → List Citation
  | _, [] => []
  | idx, p :: ps => paraCitations idx p ++ citationsGo (idx + 1) ps

/-- All raw citations of a body, in discovery order. -/
def citationsOfBody (body : List BodyParagraph) : List Citation :=
  citationsGo 0 body

/-- The `seen`-set de-duplication loop of `detect_citations`: first
occurrence of each (type, number, position) key wins. -/
def dedupeGo (seen : List (String × String × Nat)) : List Citation → List Citation
  | [] => []
  | c :: cs =>
    if citKey c ∈ seen then dedupeGo seen cs
    else c :: dedupeGo (citKey c :: seen) cs

/-- DocumentProcessor.detect_citations: collect all pattern matches over
all body paragraphs, drop duplicate (type, number, position) keys keeping
the first, and stable-sort by position (Python `sorted` is stable). -/
def detect_citations (body : List BodyParagraph) : List Citation :=
  (dedupeGo [] (citationsOfBody body)).mergeSort fun a b => a.position ≤ b.position

/-! ## Content model and renderer-level blocks -/

/-- What the pipeline can observe about one embedded image blob:
whether PIL can decode it (giving a pixel size) and whether the renderer
`add_picture` call succeeds on it. -/
structure ImageData where
  dims : Option (Nat × Nat)
  addOk : Bool
deriving DecidableEq, Repr

/-- A figure record as built by `_extract_figures`. -/
structure Figure where
  number : Nat
  image_data : ImageData
  caption : String
  rel_id : String
deriving DecidableEq, Repr

/-- A table record as built by `_extract_tables` (the unused `table_obj`
back-reference is not modelled). -/
structure Table where
  number : Nat
  data : List (List String)
  caption : String
deriving DecidableEq, Repr

/-- The content dictionary assembled by `extract_all_content`. -/
structure ContentModel where
  title : String
  authors : List String
  abstract : String
  body : List BodyParagraph
  references : List String
  figures : List Figure
  tables : List Table
deriving Repr

/-- One output block: a paragraph or table the formatter appends to the
output document.  `spacerPara` is an empty `doc.add_paragraph()`;
`emptyCenteredPara` is a centered paragraph whose `add_picture` call
raised, leaving it empty in the output. -/
inductive Block where
  | bodyPara (text : String) (isHeading : Bool)
  | spacerPara
  | emptyCenteredPara
  | image (widthInches : ℚ) (data : ImageData)
  | captionPara (text : String)
  | placeholderPara (text : String)
  | grid (rows cols : Nat) (cells : List (List String))
deriving DecidableEq, Repr

/-- Display height of an emitted image block under the renderer contract:
`add_picture` receives only the width and scales the height by the
intrinsic aspect ratio of the blob (the source computes `height_inches`
but never passes it). -/
def emittedHeight (widthInches : ℚ) (d : ImageData) : Option ℚ :=
  d.dims.map fun wh => widthInches * (wh.2 : ℚ) / (wh.1 : ℚ)

/-! ## Placement (JournalFormatter) -/

/-- JournalFormatter._insert_figure.  The whole body runs in a try/except
whose handler appends the italic placeholder; the failure points are the
`int(...)` parse of the stripped citation number, the PIL decode of the
blob (including a zero pixel width, which makes the aspect-ratio division
raise), and the renderer `add_picture` call — which, inside a nested
try/except, falls back to one more `add_picture` at the uncapped
configured width.  Paragraphs appended before a failure stay in the
output document. -/
def insert_figure (figureWidth : ℚ) (content : ContentModel) (cit : Citation) :
    List Block :=
  match parseIntPy? (rstripUpper cit.number) with
  | none => [Block.placeholderPara ("[Figure " ++ cit.number ++ " - insertion failed]")]
  | some n =>
    match content.figures.filter fun f => (f.number : Int) = n with
    | [] => []
    | figure :: _ =>
      let cap := Block.captionPara ("Figure " ++ toString n ++ ": " ++ figure.caption)
      let ph := Block.placeholderPara ("[Figure " ++ cit.number ++ " - insertion failed]")
      let fallback : List Block :=
        if figure.image_data.addOk then
          [Block.image figureWidth figure.image_data, cap, Block.spacerPara]
        else
          [Block.emptyCenteredPara, ph]
      Block.spacerPara ::
        match figure.image_data.dims with
        | some (w, _) =>
          if w = 0 then fallback
          else if figure.image_data.addOk then
            [Block.image (min figureWidth (13 / 2)) figure.image_data, cap,
             Block.spacerPara]
          else
            [Block.emptyCenteredPara, Block.emptyCenteredPara, ph]
        | none => fallback

/-- Width of the widest row, `max(len(row) for row in table_data)`
(the source only evaluates it on a nonempty row list). -/
def maxRowLen (rows : List (List String)) : Nat :=
  (rows.map List.length).foldl max 0

/-- One output table row: the renderer table has exactly `cols` cells per
row; cells beyond the extracted row stay empty, extracted cells beyond
`cols` are unreachable (`cols` is the maximum row length). -/
def normalizeRow (cols : Nat) (row : List String) : List String :=
  row.take cols ++ List.replicate (cols - row.length) ""

/-- JournalFormatter._insert_table.  The only failure point reachable in
the try body is the `int(...)` parse of the citation number: everything
after it is pure list traversal.  A missing table number or an empty row
list returns before any block is appended. -/
def insert_table (content : ContentModel) (cit : Citation) : List Block :=
  match parseIntPy? cit.number with
  | none => [Block.placeholderPara ("[Table " ++ cit.number ++ " - insertion failed]")]
  | some n =>
    match content.tables.filter fun t => (t.number : Int) = n with
    | [] => []
    | t :: _ =>
      if t.data.isEmpty then []
      else
        let rows := t.data.length
        let cols := maxRowLen t.data
        [Block.spacerPara,
         Block.captionPara ("Table " ++ toString n ++ ": " ++ t.caption)]
        ++ (if 0 < rows ∧ 0 < cols then
              [Block.grid rows cols (t.data.map (normalizeRow cols))]
            else [])
        ++ [Block.spacerPara]

/-- The citation dispatch inside the body walk. -/
def insertCitation (figureWidth : ℚ) (content : ContentModel) (cit : Citation) :
    List Block :=
  if cit.type = "figure" then insert_figure figureWidth content cit
  else if cit.type = "table" then insert_table content cit
  else []

/-- The insertion-map lookup of `_add_body_with_citations`: the map is
built by appending citations in list order under their `position` key, so
the entry for index `idx` is exactly the in-order filter. -/
def citationsAt (citations : List Citation) (idx : Nat) : List Citation :=
  citations.filter fun c => c.position = idx

/-- The paragraph block emitted for one body paragraph (heading or normal
paragraph).  The model assumes heading paragraphs have nonempty text: on
an empty heading the renderer `add_heading` produces a run-less paragraph
and the following `runs[0]` access raises, aborting the whole run; body
extraction only ever stores nonempty text. -/
def mkBodyBlock (p : BodyParagraph) : Block := Block.bodyPara p.text p.is_heading

/-- The indexed walk of `_add_body_with_citations`: emit each paragraph,
then the blocks of every citation anchored at its index. -/
def bodyGo (figureWidth : ℚ) (content : ContentModel) (citations : List Citation) :
    Nat → List BodyParagraph → List Block
  | _, [] => []
  | idx, p :: ps =>
    mkBodyBlock p
      :: ((citationsAt citations idx).flatMap (insertCitation figureWidth content)
          ++ bodyGo figureWidth content citations (idx + 1) ps)

/-- JournalFormatter._add_body_with_citations. -/
def add_body_with_citations (figureWidth : ℚ) (content : ContentModel)
    (citations : List Citation) : List Block :=
  bodyGo figureWidth content citations 0 content.body

/-- Heading paragraphs carry nonempty text (see `mkBodyBlock`): the
precondition under which the model of the body walk agrees with the
renderer. -/
def HeadingsOk (content : ContentModel) : Prop :=
  ∀ p ∈ content.body, p.is_heading = true → p.text ≠ ""

/-! ## Abstract extraction (DocumentProcessor._extract_abstract) -/

/-- Full-line IGNORECASE match of the start pattern `abstract`, with one
optional trailing colon. -/
def isAbstractHeader (s : String) : Bool :=
  lowerStr s = "abstract" || lowerStr s = "abstract:"

/-- Full-line IGNORECASE match of the end pattern: `introduction`,
`methods` or `keywords`, with one optional trailing colon. -/
def isAbstractEnd (s : String) : Bool :=
  let l := lowerStr s
  l = "introduction" || l = "introduction:" ||
  l = "methods" || l = "methods:" ||
  l = "keywords" || l = "keywords:"

/-- The scan loop of `_extract_abstract` over stripped paragraph texts:
a header line (re)arms the flag and is itself skipped, an end line seen
while armed stops the scan, and any other nonempty line seen while armed
is collected. -/
def abstractGo : Bool → List String → List String
  | _, [] => []
  | inAb, t :: rest =>
    let s := pstrip t
    if isAbstractHeader s then abstractGo true rest
    else if inAb && isAbstractEnd s then []
    else if inAb && !(s == "") then s :: abstractGo inAb rest
    else abstractGo inAb rest

/-- DocumentProcessor._extract_abstract on the document paragraph texts. -/
def extract_abstract (paras : List String) : String :=
  joinSpace (abstractGo false paras)

/-- The abstract as the claim words it: every nonempty trimmed line after
the first Abstract header line, up to but excluding the first terminator
line, space-joined.  (Definition follows the claim text, for comparison
with `extract_abstract`.) -/
def abstractClaimed (paras : List String) : String :=
  let ts := paras.map pstrip
  let after := (ts.dropWhile fun s => !isAbstractHeader s).tail
  joinSpace ((after.takeWhile fun s => !isAbstractEnd s).filter fun s => !(s == ""))

/-- The abstract as the amended claim words it: additionally, lines that
themselves match the Abstract header pattern are excluded from the join. -/
def abstractAmended (paras : List String) : String :=
  let ts := paras.map pstrip
  let after := (ts.dropWhile fun s => !isAbstractHeader s).tail
  joinSpace ((after.takeWhile fun s => !isAbstractEnd s).filter
    fun s => !(s == "") && !isAbstractHeader s)

/-! ## Title extraction (DocumentProcessor._extract_title) -/

/-- A raw source paragraph as the title scan sees it: its text, the
truthiness of `run.bold` for each run, and the style name when a style
object is attached. -/
structure RawParagraph where
  text : String
  runsBold : List Bool
  styleName : Option String
deriving DecidableEq, Repr

/-- Python `str.replace(pat, '')` with a nonempty pattern: remove every
non-overlapping occurrence, scanning left to right.  Fuel equal to the
input length is sufficient since every step consumes at least one
character. -/
def removeAllGo (pat : List Char) : Nat → List Char → List Char
  | 0, cs => cs
  | _, [] => []
  | fuel + 1, c :: cs =>
    if pat.isPrefixOf (c :: cs) then removeAllGo pat fuel ((c :: cs).drop pat.length)
    else c :: removeAllGo pat fuel cs

/-- Python `s.replace('Title:', '')` (exact case, all occurrences). -/
def removeTitleTokens (s : String) : String :=
  String.mk (removeAllGo "Title:".data s.data.length s.data)

/-- The title heuristic of `_extract_title`: first run bold (truthy), or
`title:` contained case-insensitively in the text, or `Title` contained
in the attached style name. -/
def titleHeuristic (p : RawParagraph) : Bool :=
  (match p.runsBold with | b :: _ => b | [] => false)
  || strContains (lowerStr p.text) "title:"
  || (match p.styleName with | some nm => strContains nm "Title" | none => false)

/-- The selection condition of the first loop of `_extract_title`:
nonempty stripped text and the heuristic. -/
def titleCond (p : RawParagraph) : Bool :=
  !(pstrip p.text == "") && titleHeuristic p

/-- DocumentProcessor._extract_title: first heuristic match among the
first 10 paragraphs, with every occurrence of `Title:` removed and the
result stripped; otherwise the first nonempty paragraph; otherwise the
initial empty title. -/
def extract_title (paras : List RawParagraph) : String :=
  match (paras.take 10).find? titleCond with
  | some p => pstrip (removeTitleTokens p.text)
  | none =>
    match paras.find? (fun p => !(pstrip p.text == "")) with
    | some p => pstrip p.text
    | none => ""

/-- The title as the claim words it: the matching paragraph text with one
leading `Title:` token stripped and the remainder otherwise unchanged.
(Definition follows the claim text, for comparison with
`extract_title`.) -/
def claimTitleOf (p : RawParagraph) : String :=
  if "Title:".data.isPrefixOf p.text.data then
    String.mk (p.text.data.drop "Title:".data.length)
  else p.text

/-! ## Figure extraction (DocumentProcessor._extract_figures) -/

/-- One entry of the relationship collection of the source container:
its id, its target reference string, and the blob behind it — `none`
models a blob whose access raises. -/
structure Rel where
  rel_id : String
  target_ref : String
  blob : Option ImageData
deriving DecidableEq, Repr

/-- The caption pattern of `_find_figure_caption` and
`_find_table_caption`: two optional stars, the word, whitespace, the
decimal number, one or more characters from the class period/colon/close
parenthesis/whitespace, then a nonempty captured remainder.  The one
backtracking case of the regex: when the class run reaches the end of the
line, the group takes the last character of the run back (the class needs
one and the group needs one). -/
def tryCaption (word : List Char) (n : Nat) (line : List Char) : Option (List Char) :=
  let r1 := dropOptStars line
  match matchLitCI word r1 with
  | none => none
  | some r2 =>
    match spaces1 r2 with
    | none => none
    | some r3 =>
      match matchLit (Nat.repr n).data r3 with
      | none => none
      | some r4 =>
        -- the digits of the number must not continue
        if (match r4 with | c :: _ => isDigitCh c | [] => false) then none
        else
          let isCls : Char → Bool := fun c => c = '.' || c = ':' || c = ')' || isSpaceCh c
          let run := r4.takeWhile isCls
          let rest := r4.drop run.length
          if run.isEmpty then none
          else if rest.isEmpty then
            if 2 ≤ run.length then some [run.getLastD ' '] else none
          else some rest

/-- DocumentProcessor._find_figure_caption: scan every stripped paragraph
text for the caption pattern, return the stripped group on the first
match, else the default `Figure N`. -/
def find_figure_caption (paras : List String) (n : Nat) : String :=
  match paras.findSome? (fun t => tryCaption "figure".data n (pstrip t).data) with
  | some cap => pstrip (String.mk cap)
  | none => "Figure " ++ toString n

/-- Does an enumeration entry look like an image relationship
(`"image" in rel.target_ref`)? -/
def isImageRel (r : Rel) : Bool := strContains r.target_ref "image"

/-- The relationship loop of `_extract_figures`: the counter advances only
when the blob access succeeded and the record was appended; a raising
blob is skipped (with a printed warning, outside this model) and the walk
continues. -/
def extractFiguresGo (paras : List String) : Nat → List Rel → List Figure
  | _, [] => []
  | counter, r :: rs =>
    if isImageRel r then
      match r.blob with
      | some data =>
        { number := counter + 1, image_data := data,
          caption := find_figure_caption paras (counter + 1),
          rel_id := r.rel_id } :: extractFiguresGo paras (counter + 1) rs
      | none => extractFiguresGo paras counter rs
    else extractFiguresGo paras counter rs

/-- DocumentProcessor._extract_figures on the paragraph texts and the
relationship collection. -/
def extract_figures (paras : List String) (rels : List Rel) : List Figure :=
  extractFiguresGo paras 0 rels

/-! ## Lemmas about citation collection and de-duplication -/

theorem paraCitations_position (idx : Nat) (p : BodyParagraph) :
    ∀ c ∈ paraCitations idx p, c.position = idx := by
  intro c hc
  simp only [paraCitations, List.mem_append, List.mem_flatMap, List.mem_map] at hc
  rcases hc with ⟨pat, _, wg, _, rfl⟩ | ⟨pat, _, wg, _, rfl⟩ <;> rfl

theorem citationsGo_lower (ps : List BodyParagraph) :
    ∀ idx, ∀ c ∈ citationsGo idx ps, idx ≤ c.position := by
  induction ps with
  | nil => intro idx c hc; simp [citationsGo] at hc
  | cons p ps ih =>
    intro idx c hc
    simp only [citationsGo, List.mem_append] at hc
    rcases hc with h | h
    · exact le_of_eq (paraCitations_position idx p c h).symm
    · exact le_trans (Nat.le_succ idx) (ih (idx + 1) c h)

theorem citationsGo_sorted (ps : List BodyParagraph) :
    ∀ idx, (citationsGo idx ps).Pairwise (fun a b => a.position ≤ b.position) := by
  induction ps with
  | nil => intro idx; simp [citationsGo]
  | cons p ps ih =>
    intro idx
    rw [citationsGo]
    refine List.pairwise_append.mpr ⟨?_, ih (idx + 1), ?_⟩
    · refine List.pairwise_of_forall_mem_list fun a ha b hb => ?_
      rw [paraCitations_position idx p a ha, paraCitations_position idx p b hb]
    · intro a ha b hb
      rw [paraCitations_position idx p a ha]
      exact le_trans (Nat.le_succ idx) (citationsGo_lower ps (idx + 1) b hb)

theorem dedupeGo_sublist (l : List Citation) :
    ∀ seen, (dedupeGo seen l).Sublist l := by
  induction l with
  | nil => intro seen; simp [dedupeGo]
  | cons c cs ih =>
    intro seen
    rw [dedupeGo]
    by_cases h : citKey c ∈ seen
    · rw [if_pos h]; exact (ih seen).trans (List.sublist_cons_self c cs)
    · rw [if_neg h]; exact (ih _).cons₂ c

theorem dedupeGo_not_seen (l : List Citation) :
    ∀ seen c, c ∈ dedupeGo seen l → citKey c ∉ seen := by
  induction l with
  | nil => intro seen c hc; simp [dedupeGo] at hc
  | cons d ds ih =>
    intro seen c hc
    rw [dedupeGo] at hc
    by_cases h : citKey d ∈ seen
    · rw [if_pos h] at hc; exact ih seen c hc
    · rw [if_neg h] at hc
      rcases List.mem_cons.mp hc with rfl | hc
      · exact h
      · intro hseen
        exact ih _ c hc (List.mem_cons_of_mem _ hseen)

theorem dedupeGo_find (l : List Citation) :
    ∀ seen c, c ∈ dedupeGo seen l →
      l.find? (fun d => citKey d == citKey c) = some c := by
  induction l with
  | nil => intro seen c hc; simp [dedupeGo] at hc
  | cons d ds ih =>
    intro seen c hc
    rw [dedupeGo] at hc
    by_cases h : citKey d ∈ seen
    · rw [if_pos h] at hc
      have hne : citKey d ≠ citKey c := by
        intro he; exact (dedupeGo_not_seen ds seen c hc) (he ▸ h)
      simp [List.find?_cons, hne, ih seen c hc]
    · rw [if_neg h] at hc
      rcases List.mem_cons.mp hc with rfl | hc
      · simp [List.find?_cons]
      · have hne : citKey d ≠ citKey c := fun he =>
          dedupeGo_not_seen ds _ c hc (he ▸ List.mem_cons_self _ _)
        simp [List.find?_cons, hne, ih _ c hc]

theorem dedupeGo_keys_nodup (l : List Citation) :
    ∀ seen, ((dedupeGo seen l).map citKey).Nodup := by
  induction l with
  | nil => intro seen; simp [dedupeGo]
  | cons d ds ih =>
    intro seen
    rw [dedupeGo]
    by_cases h : citKey d ∈ seen
    · rw [if_pos h]; exact ih seen
    · rw [if_neg h]
      simp only [List.map_cons, List.nodup_cons]
      refine ⟨?_, ih _⟩
      intro hmem
      rcases List.mem_map.mp hmem with ⟨c, hc, hkey⟩
      refine dedupeGo_not_seen ds _ c hc ?_
      rw [hkey]; exact List.mem_cons_self _ _

theorem dedupeGo_covers (l : List Citation) :
    ∀ seen c, c ∈ l →
      citKey c ∈ seen ∨ ∃ c2 ∈ dedupeGo seen l, citKey c2 = citKey c := by
  induction l with
  | nil => intro seen c hc; simp at hc
  | cons d ds ih =>
    intro seen c hc
    rw [dedupeGo]
    by_cases h : citKey d ∈ seen
    · rw [if_pos h]
      rcases List.mem_cons.mp hc with rfl | hc
      · exact Or.inl h
      · exact ih seen c hc
    · rw [if_neg h]
      rcases List.mem_cons.mp hc with rfl | hc
      · exact Or.inr ⟨c, List.mem_cons_self _ _, rfl⟩
      · rcases ih (citKey d :: seen) c hc with hseen | ⟨c2, hc2, he⟩
        · rcases List.mem_cons.mp hseen with he | hseen
          · exact Or.inr ⟨d, List.mem_cons_self _ _, he.symm⟩
          · exact Or.inl hseen
        · exact Or.inr ⟨c2, List.mem_cons_of_mem _ hc2, he⟩

/-- The raw citation list is already nondecreasing in position, so the
stable final sort of `detect_citations` is the identity on the deduped
list. -/
theorem detect_citations_eq (body : List BodyParagraph) :
    detect_citations body = dedupeGo [] (citationsOfBody body) := by
  have hs : (dedupeGo [] (citationsOfBody body)).Pairwise
      (fun a b : Citation => a.position ≤ b.position) :=
    List.Pairwise.sublist (dedupeGo_sublist _ []) (citationsGo_sorted body 0)
  unfold detect_citations
  exact List.mergeSort_of_sorted (hs.imp fun h => by simpa using h)

/-- C1: for every body-paragraph sequence, the citation list returned by
detect_citations has at most one citation per (kind, number, position)
triple, the kept citation for each triple is the first-discovered match
for it, every discovered triple is represented, and the list is sorted
ascending by position with ties keeping their relative discovery order
(it is a sublist of the discovery-ordered match list). -/
theorem detect_citations_dedup_sorted (body : List BodyParagraph) :
    ((detect_citations body).map citKey).Nodup ∧
    (detect_citations body).Sorted (fun a b => a.position ≤ b.position) ∧
    (detect_citations body).Sublist (citationsOfBody body) ∧
    (∀ c ∈ detect_citations body,
      (citationsOfBody body).find? (fun d => citKey d == citKey c) = some c) ∧
    ∀ c ∈ citationsOfBody body, ∃ c2 ∈ detect_citations body, citKey c2 = citKey c := by
  rw [detect_citations_eq]
  refine ⟨dedupeGo_keys_nodup _ [], ?_, dedupeGo_sublist _ [],
    fun c hc => dedupeGo_find _ [] c hc, ?_⟩
  · exact List.Pairwise.sublist (dedupeGo_sublist _ []) (citationsGo_sorted body 0)
  · intro c hc
    rcases dedupeGo_covers _ [] c hc with h | h
    · simp at h
    · exact h

/-! ## Lemmas about figure extraction -/

theorem extractFiguresGo_numbers (paras : List String) (rels : List Rel) :
    ∀ counter, (extractFiguresGo paras counter rels).map Figure.number =
      List.range' (counter + 1) (extractFiguresGo paras counter rels).length := by
  induction rels with
  | nil => intro counter; simp [extractFiguresGo]
  | cons r rs ih =>
    intro counter
    rw [extractFiguresGo]
    cases hi : isImageRel r with
    | false => simp only [Bool.false_eq_true, if_false]; exact ih counter
    | true =>
      simp only [if_true]
      cases hb : r.blob with
      | none => exact ih counter
      | some data =>
        simp only [List.map_cons, List.length_cons, List.range'_succ]
        exact congrArg (List.cons (counter + 1)) (ih (counter + 1))

theorem extractFiguresGo_length (paras : List String) (rels : List Rel) :
    ∀ counter, (extractFiguresGo paras counter rels).length =
      (rels.filter fun r => isImageRel r && r.blob.isSome).length := by
  induction rels with
  | nil => intro counter; simp [extractFiguresGo]
  | cons r rs ih =>
    intro counter
    rw [extractFiguresGo, List.filter_cons]
    cases hi : isImageRel r with
    | false => simpa using ih counter
    | true =>
      simp only [if_true, Bool.true_and]
      cases hb : r.blob with
      | none => simpa using ih counter
      | some data => simpa using ih (counter + 1)

theorem extractFiguresGo_skip (paras : List String) (r : Rel)
    (h1 : isImageRel r = true) (h2 : r.blob = none) :
    ∀ (pre post : List Rel) (counter : Nat),
      extractFiguresGo paras counter (pre ++ r :: post) =
        extractFiguresGo paras counter (pre ++ post) := by
  intro pre
  induction pre with
  | nil => intro post counter; simp [extractFiguresGo, h1, h2]
  | cons q qs ih =>
    intro post counter
    simp only [List.cons_append, extractFiguresGo]
    cases hq : isImageRel q with
    | false => simpa using ih post counter
    | true =>
      cases hb : q.blob with
      | none => simpa using ih post counter
      | some data => simpa using ih post (counter + 1)

/-- C7: extraction skips an image whose blob access raises and continues
with the remaining relationships, the counter advances only for
successful extractions, and the extracted figures are numbered 1..k
consecutively where k is the number of image relationships whose blob was
readable. -/
theorem extract_figures_numbering (paras : List String) (rels : List Rel) :
    (extract_figures paras rels).map Figure.number =
      List.range' 1 (extract_figures paras rels).length ∧
    (extract_figures paras rels).length =
      (rels.filter fun r => isImageRel r && r.blob.isSome).length ∧
    ∀ pre post r, isImageRel r = true → r.blob = none →
      extract_figures paras (pre ++ r :: post) = extract_figures paras (pre ++ post) := by
  refine ⟨extractFiguresGo_numbers paras rels 0, extractFiguresGo_length paras rels 0, ?_⟩
  intro pre post r h1 h2
  exact extractFiguresGo_skip paras r h1 h2 pre post 0

/-! ## Lemmas about abstract extraction -/

theorem header_not_end {s : String} (h : isAbstractHeader s = true) :
    isAbstractEnd s = false := by
  have h2 : lowerStr s = "abstract" ∨ lowerStr s = "abstract:" := by
    simpa [isAbstractHeader] using h
  rcases h2 with h2 | h2 <;> simp [isAbstractEnd, h2]

/-- Once the flag is armed, the collected lines are exactly the nonempty
stripped lines before the first terminator that are not themselves header
lines. -/
theorem abstractGo_true (l : List String) :
    abstractGo true l =
      ((l.map pstrip).takeWhile fun s => !isAbstractEnd s).filter
        fun s => !(s == "") && !isAbstractHeader s := by
  induction l with
  | nil => simp [abstractGo]
  | cons t rest ih =>
    rw [abstractGo]
    simp only [List.map_cons, List.takeWhile_cons]
    by_cases h1 : isAbstractHeader (pstrip t) = true
    · rw [if_pos h1, header_not_end h1]
      simpa [List.filter_cons, h1] using ih
    · rw [if_neg h1]
      by_cases h2 : isAbstractEnd (pstrip t) = true
      · simp [h1, h2]
      · by_cases h3 : (pstrip t == "") = true
        · simp [h1, h2, h3, List.filter_cons, ih]
        · simp [h1, h2, h3, List.filter_cons, ih]

/-- Before the flag is armed, every line up to and including the first
header line is skipped. -/
theorem abstractGo_false (l : List String) :
    abstractGo false l =
      ((((l.map pstrip).dropWhile fun s => !isAbstractHeader s).tail.takeWhile
          fun s => !isAbstractEnd s).filter
        fun s => !(s == "") && !isAbstractHeader s) := by
  induction l with
  | nil => simp [abstractGo]
  | cons t rest ih =>
    rw [abstractGo]
    simp only [List.map_cons, List.dropWhile_cons]
    by_cases h1 : isAbstractHeader (pstrip t) = true
    · rw [if_pos h1]
      simp only [h1, Bool.not_true, Bool.false_eq_true, if_false, List.tail_cons]
      exact abstractGo_true rest
    · rw [if_neg h1]
      simp only [h1, Bool.not_false, if_true]
      by_cases h2 : isAbstractEnd (pstrip t) = true
      · simp only [Bool.false_and, Bool.false_eq_true, if_false]
        by_cases h3 : (pstrip t == "") = true <;> simp [h3, ih]
      · by_cases h3 : (pstrip t == "") = true <;> simp [h2, h3, ih]

/-- C6 counterexample input: a second header line sits between the first
header and the terminator. -/
def c6input : List String :=
  ["Title: X", "Abstract", "foo", "Abstract:", "bar", "Introduction", "body"]

/-- C6 (claim as stated is false): the input contains a line that is
exactly the Abstract header, yet the extracted abstract is not the
space-join of all subsequent nonempty trimmed lines before the first
terminator — the interior line `Abstract:` is skipped by the code but
kept by the claim. -/
theorem extract_abstract_claim_cex :
    (c6input.map pstrip).any isAbstractHeader = true ∧
    extract_abstract c6input = "foo bar" ∧
    abstractClaimed c6input = "foo Abstract: bar" ∧
    extract_abstract c6input ≠ abstractClaimed c6input := by
  refine ⟨by decide, by decide, by decide, by decide⟩

/-- C6 amended: for every paragraph sequence, the extracted abstract
equals the space-join of the nonempty trimmed lines strictly between the
first Abstract-header line and the next Introduction/Methods/Keywords
line, excluding lines that themselves match the Abstract-header pattern
(both boundary lines excluded; with no header line the abstract is
empty). -/
theorem extract_abstract_amended (paras : List String) :
    extract_abstract paras = abstractAmended paras := by
  unfold extract_abstract abstractAmended
  rw [abstractGo_false]

/-! ## Lemmas about title extraction -/

/-- find? returns the element at the first index satisfying the
predicate. -/
theorem find?_at_first_index {α : Type} (p : α → Bool) :
    ∀ (l : List α) (i : Nat) (h : i < l.length),
      (∀ j, j < i → ∀ hj : j < l.length, p l[j] = false) →
      p l[i] = true → l.find? p = some l[i] := by
  intro l
  induction l with
  | nil => intro i h; exact absurd h (Nat.not_lt_zero i)
  | cons a as ih =>
    intro i h hbefore hp
    cases i with
    | zero => exact List.find?_cons_of_pos as hp
    | succ n =>
      have ha : p a = false := hbefore 0 (Nat.succ_pos n) (Nat.succ_pos as.length)
      rw [List.find?_cons_of_neg as (by simp [ha])]
      exact ih n (Nat.lt_of_succ_lt_succ h)
        (fun j hj hjl => hbefore (j + 1) (Nat.succ_lt_succ hj) (Nat.succ_lt_succ hjl)) hp

/-- C8 counterexample input: a bold first run and an interior
`Title:` occurrence. -/
def c8para : RawParagraph := { text := "A Title: B", runsBold := [true], styleName := none }

/-- C8 (claim as stated is false): the paragraph is among the first 10,
has nonempty text and matches the title heuristic, but the extracted
title is not its text with a leading `Title:` token stripped and the rest
unchanged — the source removes the interior occurrence of `Title:` as
well (`str.replace` removes every occurrence). -/
theorem extract_title_claim_cex :
    titleCond c8para = true ∧
    extract_title [c8para] = "A  B" ∧
    claimTitleOf c8para = "A Title: B" ∧
    extract_title [c8para] ≠ claimTitleOf c8para := by
  refine ⟨by decide, by decide, by decide, by decide⟩

/-- C8 amended: when index i (i < 10) holds the first paragraph with
nonempty stripped text matching the title heuristic, the extracted title
is that paragraph text with every occurrence of the exact substring
`Title:` removed and the result stripped of surrounding whitespace. -/
theorem extract_title_amended (paras : List RawParagraph) (i : Nat)
    (hi10 : i < 10) (hil : i < paras.length)
    (hfirst : ∀ j, j < i → ∀ hj : j < paras.length, titleCond paras[j] = false)
    (hcond : titleCond paras[i] = true) :
    extract_title paras = pstrip (removeTitleTokens paras[i].text) := by
  have hlen : i < (paras.take 10).length := by
    rw [List.length_take]
    exact lt_min hi10 hil
  have hfind : (paras.take 10).find? titleCond = some (paras.take 10)[i] := by
    refine find?_at_first_index titleCond (paras.take 10) i hlen ?_ ?_
    · intro j hj hjl
      rw [List.getElem_take]
      exact hfirst j hj (lt_of_lt_of_le (lt_of_lt_of_le hjl (le_of_eq (List.length_take 10 paras))) (min_le_right 10 paras.length))
    · rw [List.getElem_take]
      exact hcond
  unfold extract_title
  rw [hfind, List.getElem_take]

/-! ## Case equations for figure and table placement -/

/-- Normal placement path: decodable image with nonzero pixel width and a
succeeding add_picture call. -/
theorem insert_figure_normal (fw : ℚ) (content : ContentModel) (cit : Citation)
    (n : Int) (fig : Figure) (rest : List Figure) (w h : Nat)
    (hp : parseIntPy? (rstripUpper cit.number) = some n)
    (hf : content.figures.filter (fun f => (f.number : Int) = n) = fig :: rest)
    (hd : fig.image_data.dims = some (w, h)) (hw : w ≠ 0)
    (ha : fig.image_data.addOk = true) :
    insert_figure fw content cit =
      [Block.spacerPara, Block.image (min fw (13 / 2)) fig.image_data,
       Block.captionPara ("Figure " ++ toString n ++ ": " ++ fig.caption),
       Block.spacerPara] := by
  simp only [insert_figure, hp, hf, hd]
  simp [hw, ha]

/-- Decodable image, failing add_picture: the fallback add_picture fails
again and the handler appends the placeholder after the paragraphs the
two attempts left behind. -/
theorem insert_figure_addfail (fw : ℚ) (content : ContentModel) (cit : Citation)
    (n : Int) (fig : Figure) (rest : List Figure) (w h : Nat)
    (hp : parseIntPy? (rstripUpper cit.number) = some n)
    (hf : content.figures.filter (fun f => (f.number : Int) = n) = fig :: rest)
    (hd : fig.image_data.dims = some (w, h)) (hw : w ≠ 0)
    (ha : fig.image_data.addOk = false) :
    insert_figure fw content cit =
      [Block.spacerPara, Block.emptyCenteredPara, Block.emptyCenteredPara,
       Block.placeholderPara ("[Figure " ++ cit.number ++ " - insertion failed]")] := by
  simp only [insert_figure, hp, hf, hd]
  simp [hw, ha]

/-- Undecodable image, succeeding fallback add_picture: placed at the
uncapped configured width, caption still emitted. -/
theorem insert_figure_decodefail_addok (fw : ℚ) (content : ContentModel)
    (cit : Citation) (n : Int) (fig : Figure) (rest : List Figure)
    (hp : parseIntPy? (rstripUpper cit.number) = some n)
    (hf : content.figures.filter (fun f => (f.number : Int) = n) = fig :: rest)
    (hd : fig.image_data.dims = none)
    (ha : fig.image_data.addOk = true) :
    insert_figure fw content cit =
      [Block.spacerPara, Block.image fw fig.image_data,
       Block.captionPara ("Figure " ++ toString n ++ ": " ++ fig.caption),
       Block.spacerPara] := by
  simp only [insert_figure, hp, hf, hd]
  simp [ha]

/-- Undecodable image, failing fallback add_picture: the handler appends
the placeholder after the spacer and the abandoned centered paragraph. -/
theorem insert_figure_decodefail_addfail (fw : ℚ) (content : ContentModel)
    (cit : Citation) (n : Int) (fig : Figure) (rest : List Figure)
    (hp : parseIntPy? (rstripUpper cit.number) = some n)
    (hf : content.figures.filter (fun f => (f.number : Int) = n) = fig :: rest)
    (hd : fig.image_data.dims = none)
    (ha : fig.image_data.addOk = false) :
    insert_figure fw content cit =
      [Block.spacerPara, Block.emptyCenteredPara,
       Block.placeholderPara ("[Figure " ++ cit.number ++ " - insertion failed]")] := by
  simp only [insert_figure, hp, hf, hd]
  simp [ha]

/-- Missing figure number: return before any block is appended. -/
theorem insert_figure_missing (fw : ℚ) (content : ContentModel) (cit : Citation)
    (n : Int)
    (hp : parseIntPy? (rstripUpper cit.number) = some n)
    (hf : content.figures.filter (fun f => (f.number : Int) = n) = []) :
    insert_figure fw content cit = [] := by
  simp only [insert_figure, hp, hf]

/-- Missing table number: return before any block is appended. -/
theorem insert_table_missing (content : ContentModel) (cit : Citation) (n : Int)
    (hp : parseIntPy? cit.number = some n)
    (hf : content.tables.filter (fun t => (t.number : Int) = n) = []) :
    insert_table content cit = [] := by
  simp only [insert_table, hp, hf]

/-- Unparsable table citation number: the `int(...)` call raises inside
the try block and the handler appends the placeholder. -/
theorem insert_table_badnum (content : ContentModel) (cit : Citation)
    (hp : parseIntPy? cit.number = none) :
    insert_table content cit =
      [Block.placeholderPara ("[Table " ++ cit.number ++ " - insertion failed]")] := by
  simp only [insert_table, hp]

/-- Successful table placement: matching number, nonempty row list and a
positive maximum row width emit spacing, caption, the grid and the
trailing spacing. -/
theorem insert_table_success (content : ContentModel) (cit : Citation) (n : Int)
    (t : Table) (rest : List Table)
    (hp : parseIntPy? cit.number = some n)
    (hf : content.tables.filter (fun tb => (tb.number : Int) = n) = t :: rest)
    (hne : t.data ≠ []) (hcols : 0 < maxRowLen t.data) :
    insert_table content cit =
      [Block.spacerPara,
       Block.captionPara ("Table " ++ toString n ++ ": " ++ t.caption),
       Block.grid t.data.length (maxRowLen t.data)
         (t.data.map (normalizeRow (maxRowLen t.data))),
       Block.spacerPara] := by
  have hrows : 0 < t.data.length := List.length_pos.mpr hne
  simp only [insert_table, hp, hf]
  simp [hne, hrows, hcols]

/-- Rows that are all empty give maximum row width zero. -/
theorem maxRowLen_of_all_nil (d : List (List String)) (h : ∀ row ∈ d, row = []) :
    maxRowLen d = 0 := by
  unfold maxRowLen
  induction d with
  | nil => rfl
  | cons r rs ih =>
    have hr : r = [] := h r (List.mem_cons_self r rs)
    have hrest : ∀ row ∈ rs, row = [] := fun row hm => h row (List.mem_cons_of_mem r hm)
    simp only [List.map_cons, hr, List.length_nil, List.foldl_cons, Nat.max_self]
    exact ih hrest

/-- The non-abort lemma for the body walk: every body paragraph is
emitted regardless of what the per-citation insertions do. -/
theorem bodyGo_para_mem (fw : ℚ) (content : ContentModel) (cits : List Citation) :
    ∀ (ps : List BodyParagraph) (idx : Nat) (p : BodyParagraph), p ∈ ps →
      mkBodyBlock p ∈ bodyGo fw content cits idx ps := by
  intro ps
  induction ps with
  | nil => intro idx p hp; simp at hp
  | cons q qs ih =>
    intro idx p hp
    rw [bodyGo]
    rcases List.mem_cons.mp hp with rfl | hp
    · exact List.mem_cons_self _ _
    · exact List.mem_cons_of_mem _ (List.mem_append_right _ (ih (idx + 1) p hp))

/-- The letter-suffix strip as the C3 claim words it: any trailing ASCII
letters, in either case. (Definition follows the claim text.) -/
def stripTrailingLetters (s : String) : String :=
  String.mk (s.data.reverse.dropWhile isLetterCh).reverse

/-- C3 counterexample fixture: no figures and no tables were extracted. -/
def c3content : ContentModel :=
  { title := "", authors := [], abstract := "", body := [], references := [],
    figures := [], tables := [] }

/-- C3 counterexample citation: a sub-panel citation with a lowercase
suffix, as produced by the IGNORECASE citation patterns on text such as
`figure 1a`. -/
def c3cit : Citation :=
  { type := "figure", number := "1a", position := 0, context := "", match_text := "" }

/-- C3 (claim as stated is false): the citation number `1a` stripped of
any trailing letter suffix is `1`, and no figure numbered 1 exists, yet
placement emits a placeholder block rather than nothing: `rstrip` in the
source removes only uppercase letters, so `int('1a')` raises and the
handler appends the placeholder. -/
theorem insert_figure_missing_cex :
    stripTrailingLetters c3cit.number = "1" ∧
    c3content.figures = [] ∧
    insert_figure 6 c3content c3cit =
      [Block.placeholderPara "[Figure 1a - insertion failed]"] ∧
    insert_figure 6 c3content c3cit ≠ [] := by
  refine ⟨by decide, by decide, by decide, by decide⟩

/-- C3 amended: a citation whose number parses to an integer after the
uppercase-only strip (figures) or directly (tables) and has no matching
extracted asset produces no block at all; a figure citation whose number
fails the integer parse after the strip (for example a lowercase
sub-panel suffix) produces the italic insertion-failed placeholder
instead. -/
theorem insert_missing_asset_silent_skip :
    (∀ (fw : ℚ) (content : ContentModel) (cit : Citation) (n : Int),
      parseIntPy? (rstripUpper cit.number) = some n →
      content.figures.filter (fun f => (f.number : Int) = n) = [] →
      insert_figure fw content cit = []) ∧
    (∀ (content : ContentModel) (cit : Citation) (n : Int),
      parseIntPy? cit.number = some n →
      content.tables.filter (fun t => (t.number : Int) = n) = [] →
      insert_table content cit = []) ∧
    ∀ (fw : ℚ) (content : ContentModel) (cit : Citation),
      parseIntPy? (rstripUpper cit.number) = none →
      insert_figure fw content cit =
        [Block.placeholderPara ("[Figure " ++ cit.number ++ " - insertion failed]")] := by
  refine ⟨fun fw content cit n hp hf => insert_figure_missing fw content cit n hp hf,
    fun content cit n hp hf => insert_table_missing content cit n hp hf,
    fun fw content cit hp => ?_⟩
  simp only [insert_figure, hp]

/-- C4: when the cited asset exists but placement raises, the run is not
aborted and the output carries a visible italic placeholder.  First
conjunct: a figure whose add_picture call fails (both attempts) leaves
the figure placeholder in the emitted blocks.  Second conjunct: the
failure reachable inside the table try-block (the integer parse of the
citation number) yields the table placeholder.  Third conjunct: the body
walk emits every body paragraph whatever the insertions do, so no
per-citation failure aborts the run. -/
theorem insert_failure_placeholder :
    (∀ (fw : ℚ) (content : ContentModel) (cit : Citation) (n : Int)
        (fig : Figure) (rest : List Figure),
      parseIntPy? (rstripUpper cit.number) = some n →
      content.figures.filter (fun f => (f.number : Int) = n) = fig :: rest →
      fig.image_data.addOk = false →
      Block.placeholderPara ("[Figure " ++ cit.number ++ " - insertion failed]") ∈
        insert_figure fw content cit) ∧
    (∀ (content : ContentModel) (cit : Citation),
      parseIntPy? cit.number = none →
      insert_table content cit =
        [Block.placeholderPara ("[Table " ++ cit.number ++ " - insertion failed]")]) ∧
    ∀ (fw : ℚ) (content : ContentModel) (cits : List Citation) (p : BodyParagraph),
      HeadingsOk content → p ∈ content.body →
      mkBodyBlock p ∈ add_body_with_citations fw content cits := by
  refine ⟨?_, fun content cit hp => insert_table_badnum content cit hp,
    fun fw content cits p _ hp => bodyGo_para_mem fw content cits content.body 0 p hp⟩
  intro fw content cit n fig rest hp hf ha
  cases hd : fig.image_data.dims with
  | none => rw [insert_figure_decodefail_addfail fw content cit n fig rest hp hf hd ha]; simp
  | some wh =>
    rcases wh with ⟨w, h⟩
    by_cases hw : w = 0
    · have hd0 : fig.image_data.dims = some (0, h) := by rw [hd, hw]
      rw [show insert_figure fw content cit =
          [Block.spacerPara, Block.emptyCenteredPara,
           Block.placeholderPara ("[Figure " ++ cit.number ++ " - insertion failed]")]
        from by simp only [insert_figure, hp, hf, hd0]; simp [ha]]
      simp
    · rw [insert_figure_addfail fw content cit n fig rest w h hp hf hd hw ha]; simp

/-- C5 counterexample fixture: a figure whose blob the PIL decode step
rejects but whose add_picture call succeeds. -/
def c5content : ContentModel :=
  { title := "", authors := [], abstract := "", body := [], references := [],
    figures := [{ number := 1, image_data := { dims := none, addOk := true },
                  caption := "cap", rel_id := "rId1" }], tables := [] }

/-- C5 counterexample citation. -/
def c5cit : Citation :=
  { type := "figure", number := "1", position := 0, context := "", match_text := "" }

/-- C5 (claim as stated is false): with configured figure width 7 inches
(the settings slider reaches 7.0), a figure whose intrinsic size cannot
be decoded is still successfully placed — but at the uncapped configured
width 7, not at min(7, 6.5): the decode failure routes placement through
the fallback add_picture call, which passes `self.figure_width`
directly. -/
theorem insert_figure_width_cex :
    insert_figure 7 c5content c5cit =
      [Block.spacerPara, Block.image 7 { dims := none, addOk := true },
       Block.captionPara "Figure 1: cap", Block.spacerPara] ∧
    (7 : ℚ) ≠ min 7 (13 / 2) := by
  constructor
  · decide
  · have h : min (7 : ℚ) (13 / 2) = 13 / 2 := min_eq_right (by norm_num)
    rw [h]; norm_num

/-- C5 amended: every figure placed through the normal path — intrinsic
pixel size decoded as (w, h) with w nonzero and add_picture succeeding —
is emitted at width min(configured width, 6.5) inches, and the renderer
contract makes its display height width times h over w; a figure placed
through the decode-failure fallback is emitted at the configured width
without the 6.5-inch cap. -/
theorem insert_figure_width_amended :
    (∀ (fw : ℚ) (content : ContentModel) (cit : Citation) (n : Int)
        (fig : Figure) (rest : List Figure) (w h : Nat),
      parseIntPy? (rstripUpper cit.number) = some n →
      content.figures.filter (fun f => (f.number : Int) = n) = fig :: rest →
      fig.image_data.dims = some (w, h) → w ≠ 0 →
      fig.image_data.addOk = true →
      insert_figure fw content cit =
        [Block.spacerPara, Block.image (min fw (13 / 2)) fig.image_data,
         Block.captionPara ("Figure " ++ toString n ++ ": " ++ fig.caption),
         Block.spacerPara] ∧
      emittedHeight (min fw (13 / 2)) fig.image_data =
        some (min fw (13 / 2) * (h : ℚ) / (w : ℚ))) ∧
    ∀ (fw : ℚ) (content : ContentModel) (cit : Citation) (n : Int)
        (fig : Figure) (rest : List Figure),
      parseIntPy? (rstripUpper cit.number) = some n →
      content.figures.filter (fun f => (f.number : Int) = n) = fig :: rest →
      fig.image_data.dims = none →
      fig.image_data.addOk = true →
      insert_figure fw content cit =
        [Block.spacerPara, Block.image fw fig.image_data,
         Block.captionPara ("Figure " ++ toString n ++ ": " ++ fig.caption),
         Block.spacerPara] := by
  refine ⟨fun fw content cit n fig rest w h hp hf hd hw ha =>
    ⟨insert_figure_normal fw content cit n fig rest w h hp hf hd hw ha, ?_⟩,
    fun fw content cit n fig rest hp hf hd ha =>
      insert_figure_decodefail_addok fw content cit n fig rest hp hf hd ha⟩
  simp [emittedHeight, hd]

/-- C9: placement failure is not atomic.  When add_picture raises after
the spacing paragraph (and, for a decodable image, the centered paragraph
of the first attempt and the one of the fallback attempt) were already
emitted, those blocks remain in the output and the italic placeholder is
appended after them rather than replacing them. -/
theorem insert_figure_partial_blocks_remain :
    (∀ (fw : ℚ) (content : ContentModel) (cit : Citation) (n : Int)
        (fig : Figure) (rest : List Figure) (w h : Nat),
      parseIntPy? (rstripUpper cit.number) = some n →
      content.figures.filter (fun f => (f.number : Int) = n) = fig :: rest →
      fig.image_data.dims = some (w, h) → w ≠ 0 →
      fig.image_data.addOk = false →
      insert_figure fw content cit =
        [Block.spacerPara, Block.emptyCenteredPara, Block.emptyCenteredPara,
         Block.placeholderPara ("[Figure " ++ cit.number ++ " - insertion failed]")]) ∧
    ∀ (fw : ℚ) (content : ContentModel) (cit : Citation) (n : Int)
        (fig : Figure) (rest : List Figure),
      parseIntPy? (rstripUpper cit.number) = some n →
      content.figures.filter (fun f => (f.number : Int) = n) = fig :: rest →
      fig.image_data.dims = none →
      fig.image_data.addOk = false →
      insert_figure fw content cit =
        [Block.spacerPara, Block.emptyCenteredPara,
         Block.placeholderPara ("[Figure " ++ cit.number ++ " - insertion failed]")] :=
  ⟨fun fw content cit n fig rest w h hp hf hd hw ha =>
    insert_figure_addfail fw content cit n fig rest w h hp hf hd hw ha,
   fun fw content cit n fig rest hp hf hd ha =>
    insert_figure_decodefail_addfail fw content cit n fig rest hp hf hd ha⟩

/-- C10: a cited table whose extracted grid has rows but whose maximum
row width is zero gets its caption block emitted but no grid block: the
`rows > 0 and cols > 0` guard skips only the add_table call, after the
caption was already appended. -/
theorem insert_table_zero_width_grid (content : ContentModel) (cit : Citation)
    (n : Int) (t : Table) (rest : List Table)
    (hp : parseIntPy? cit.number = some n)
    (hf : content.tables.filter (fun tb => (tb.number : Int) = n) = t :: rest)
    (hne : t.data ≠ [])
    (hrows : ∀ row ∈ t.data, row = []) :
    insert_table content cit =
      [Block.spacerPara,
       Block.captionPara ("Table " ++ toString n ++ ": " ++ t.caption),
       Block.spacerPara] ∧
    ∀ r c cells, Block.grid r c cells ∉ insert_table content cit := by
  have hcols : maxRowLen t.data = 0 := maxRowLen_of_all_nil t.data hrows
  have heq : insert_table content cit =
      [Block.spacerPara,
       Block.captionPara ("Table " ++ toString n ++ ": " ++ t.caption),
       Block.spacerPara] := by
    simp only [insert_table, hp, hf]
    simp [hne, hcols]
  refine ⟨heq, fun r c cells hmem => ?_⟩
  rw [heq] at hmem
  simp at hmem

/-! ## Counting lemmas for the body walk -/

/-- The blocks inserted immediately after the paragraph at body index
`idx`: the in-order citations anchored there, expanded by the dispatch. -/
def insertedAt (fw : ℚ) (content : ContentModel) (cits : List Citation) (idx : Nat) :
    List Block :=
  (citationsAt cits idx).flatMap (insertCitation fw content)

/-- bodyGo emits the paragraph at every covered index followed by its
insertions, so a block inserted at a covered index occurs in the walk. -/
theorem bodyGo_count_ge_one (fw : ℚ) (content : ContentModel) (cits : List Citation)
    (b : Block) :
    ∀ (ps : List BodyParagraph) (idx p : Nat), idx ≤ p → p < idx + ps.length →
      b ∈ insertedAt fw content cits p →
      1 ≤ (bodyGo fw content cits idx ps).count b := by
  intro ps
  induction ps with
  | nil => intro idx p h1 h2 hb; exact absurd h2 (by simp; omega)
  | cons q qs ih =>
    intro idx p h1 h2 hb
    rw [bodyGo, List.count_cons, List.count_append]
    rcases eq_or_lt_of_le h1 with rfl | hlt
    · have hseg : 0 < ((citationsAt cits idx).flatMap (insertCitation fw content)).count b :=
        List.count_pos_iff.mpr hb
      have hz : 0 ≤ (bodyGo fw content cits (idx + 1) qs).count b := Nat.zero_le _
      omega
    · have hrest : 1 ≤ (bodyGo fw content cits (idx + 1) qs).count b := by
        refine ih (idx + 1) p hlt ?_ hb
        simp only [List.length_cons] at h2
        omega
      omega

/-- Two distinct covered indices whose insertion segments both carry the
block force at least two occurrences in the walk. -/
theorem bodyGo_count_ge_two (fw : ℚ) (content : ContentModel) (cits : List Citation)
    (b : Block) :
    ∀ (ps : List BodyParagraph) (idx p1 p2 : Nat),
      idx ≤ p1 → idx ≤ p2 → p1 < idx + ps.length → p2 < idx + ps.length →
      p1 ≠ p2 →
      b ∈ insertedAt fw content cits p1 → b ∈ insertedAt fw content cits p2 →
      2 ≤ (bodyGo fw content cits idx ps).count b := by
  intro ps
  induction ps with
  | nil => intro idx p1 p2 h1 _ h3 _ _ _ _; exact absurd h3 (by simp; omega)
  | cons q qs ih =>
    intro idx p1 p2 h1 h2 h3 h4 hne hb1 hb2
    simp only [List.length_cons] at h3 h4
    rw [bodyGo, List.count_cons, List.count_append]
    rcases eq_or_lt_of_le h1 with rfl | hlt1
    · have hseg : 0 < ((citationsAt cits idx).flatMap (insertCitation fw content)).count b :=
        List.count_pos_iff.mpr hb1
      have hrest : 1 ≤ (bodyGo fw content cits (idx + 1) qs).count b := by
        refine bodyGo_count_ge_one fw content cits b qs (idx + 1) p2 ?_ (by omega) hb2
        omega
      omega
    · rcases eq_or_lt_of_le h2 with rfl | hlt2
      · have hseg : 0 < ((citationsAt cits idx).flatMap (insertCitation fw content)).count b :=
          List.count_pos_iff.mpr hb2
        have hrest : 1 ≤ (bodyGo fw content cits (idx + 1) qs).count b := by
          refine bodyGo_count_ge_one fw content cits b qs (idx + 1) p1 ?_ (by omega) hb1
          omega
        omega
      · have := ih (idx + 1) p1 p2 hlt1 hlt2 (by omega) (by omega) hne hb1 hb2
        omega

/-- C2: an asset cited from two distinct body-paragraph positions is
emitted after the paragraph at each of those positions, for figures and
for tables alike.  First conjunct: a successfully placeable figure has
its image block in the insertion segment of both citing positions, and
the full body walk contains it at least twice.  Second conjunct: the
same for the grid block of a successfully placeable table. -/
theorem same_asset_inserted_at_each_position :
    (∀ (fw : ℚ) (content : ContentModel) (cits : List Citation)
        (c1 c2 : Citation) (n : Int) (fig : Figure) (rest : List Figure) (w h : Nat),
      HeadingsOk content →
      c1 ∈ cits → c2 ∈ cits →
      c1.type = "figure" → c2.type = "figure" →
      parseIntPy? (rstripUpper c1.number) = some n →
      parseIntPy? (rstripUpper c2.number) = some n →
      c1.position ≠ c2.position →
      c1.position < content.body.length →
      c2.position < content.body.length →
      content.figures.filter (fun f => (f.number : Int) = n) = fig :: rest →
      fig.image_data.dims = some (w, h) → w ≠ 0 →
      fig.image_data.addOk = true →
      Block.image (min fw (13 / 2)) fig.image_data ∈
        insertedAt fw content cits c1.position ∧
      Block.image (min fw (13 / 2)) fig.image_data ∈
        insertedAt fw content cits c2.position ∧
      2 ≤ (add_body_with_citations fw content cits).count
        (Block.image (min fw (13 / 2)) fig.image_data)) ∧
    ∀ (fw : ℚ) (content : ContentModel) (cits : List Citation)
        (c1 c2 : Citation) (n : Int) (t : Table) (rest : List Table),
      HeadingsOk content →
      c1 ∈ cits → c2 ∈ cits →
      c1.type = "table" → c2.type = "table" →
      parseIntPy? c1.number = some n →
      parseIntPy? c2.number = some n →
      c1.position ≠ c2.position →
      c1.position < content.body.length →
      c2.position < content.body.length →
      content.tables.filter (fun tb => (tb.number : Int) = n) = t :: rest →
      t.data ≠ [] → 0 < maxRowLen t.data →
      Block.grid t.data.length (maxRowLen t.data)
          (t.data.map (normalizeRow (maxRowLen t.data))) ∈
        insertedAt fw content cits c1.position ∧
      Block.grid t.data.length (maxRowLen t.data)
          (t.data.map (normalizeRow (maxRowLen t.data))) ∈
        insertedAt fw content cits c2.position ∧
      2 ≤ (add_body_with_citations fw content cits).count
        (Block.grid t.data.length (maxRowLen t.data)
          (t.data.map (normalizeRow (maxRowLen t.data)))) := by
  constructor
  · intro fw content cits c1 c2 n fig rest w h _hok hc1 hc2 ht1 ht2 hp1 hp2 hne
      hb1 hb2 hf hd hw ha
    have hmem : ∀ c : Citation, c ∈ cits → c.type = "figure" →
        parseIntPy? (rstripUpper c.number) = some n →
        Block.image (min fw (13 / 2)) fig.image_data ∈
          insertedAt fw content cits c.position := by
      intro c hc ht hp
      refine List.mem_flatMap.mpr ⟨c, ?_, ?_⟩
      · exact List.mem_filter.mpr ⟨hc, by simp⟩
      · rw [insertCitation, if_pos ht,
          insert_figure_normal fw content c n fig rest w h hp hf hd hw ha]
        simp
    have h1 := hmem c1 hc1 ht1 hp1
    have h2 := hmem c2 hc2 ht2 hp2
    refine ⟨h1, h2, ?_⟩
    exact bodyGo_count_ge_two fw content cits _ content.body 0 c1.position c2.position
      (Nat.zero_le _) (Nat.zero_le _) (by omega) (by omega) hne h1 h2
  · intro fw content cits c1 c2 n t rest _hok hc1 hc2 ht1 ht2 hp1 hp2 hne
      hb1 hb2 hf hdne hcols
    have hmem : ∀ c : Citation, c ∈ cits → c.type = "table" →
        parseIntPy? c.number = some n →
        Block.grid t.data.length (maxRowLen t.data)
            (t.data.map (normalizeRow (maxRowLen t.data))) ∈
          insertedAt fw content cits c.position := by
      intro c hc ht hp
      refine List.mem_flatMap.mpr ⟨c, ?_, ?_⟩
      · exact List.mem_filter.mpr ⟨hc, by simp⟩
      · have hnf : ¬(c.type = "figure") := by rw [ht]; decide
        rw [insertCitation, if_neg hnf, if_pos ht,
          insert_table_success content c n t rest hp hf hdne hcols]
        simp
    have h1 := hmem c1 hc1 ht1 hp1
    have h2 := hmem c2 hc2 ht2 hp2
    refine ⟨h1, h2, ?_⟩
    exact bodyGo_count_ge_two fw content cits _ content.body 0 c1.position c2.position
      (Nat.zero_le _) (Nat.zero_le _) (by omega) (by omega) hne h1 h2

/-! ## Concrete instantiations of the theorems with hypotheses -/

/-- Witness fixture for the citation detector: one paragraph citing the
same figure through two different patterns. -/
def c1body : List BodyParagraph :=
  [{ text := "as in Figure 2 and (Fig. 2)", style := "Normal", is_heading := false }]

/-- The first-discovered citation for the triple (figure, 2, 0): pattern
one runs first and finds the parenthesized form. -/
def c1cit : Citation :=
  { type := "figure", number := "2", position := 0,
    context := "as in Figure 2 and (Fig. 2)", match_text := "(Fig. 2)" }

theorem detect_citations_dedup_sorted_witness :
    (citationsOfBody c1body).find? (fun d => citKey d == citKey c1cit) = some c1cit :=
  (detect_citations_dedup_sorted c1body).2.2.2.1 c1cit
    (by rw [detect_citations_eq]; decide)

/-- Witness fixture for double insertion: two paragraphs, each citing
figure 1. -/
def c2fig : Figure :=
  { number := 1, image_data := { dims := some (10, 5), addOk := true },
    caption := "c", rel_id := "r" }

def c2content : ContentModel :=
  { title := "", authors := [], abstract := "",
    body := [{ text := "A", style := "Normal", is_heading := false },
             { text := "B", style := "Normal", is_heading := false }],
    references := [], figures := [c2fig], tables := [] }

def c2cit1 : Citation :=
  { type := "figure", number := "1", position := 0, context := "A", match_text := "Figure 1" }

def c2cit2 : Citation :=
  { type := "figure", number := "1", position := 1, context := "B", match_text := "Figure 1" }

/-- Witness fixture for double table insertion: two paragraphs, each
citing table 1, whose one-cell grid is placeable. -/
def c2tab : Table := { number := 1, data := [["x"]], caption := "tc" }

def c2tcontent : ContentModel :=
  { title := "", authors := [], abstract := "",
    body := [{ text := "A", style := "Normal", is_heading := false },
             { text := "B", style := "Normal", is_heading := false }],
    references := [], figures := [], tables := [c2tab] }

def c2tcit1 : Citation :=
  { type := "table", number := "1", position := 0, context := "A", match_text := "Table 1" }

def c2tcit2 : Citation :=
  { type := "table", number := "1", position := 1, context := "B", match_text := "Table 1" }

theorem same_asset_inserted_at_each_position_witness :
    (Block.image (min 6 (13 / 2)) c2fig.image_data ∈
      insertedAt 6 c2content [c2cit1, c2cit2] c2cit1.position ∧
    Block.image (min 6 (13 / 2)) c2fig.image_data ∈
      insertedAt 6 c2content [c2cit1, c2cit2] c2cit2.position ∧
    2 ≤ (add_body_with_citations 6 c2content [c2cit1, c2cit2]).count
      (Block.image (min 6 (13 / 2)) c2fig.image_data)) ∧
    Block.grid c2tab.data.length (maxRowLen c2tab.data)
        (c2tab.data.map (normalizeRow (maxRowLen c2tab.data))) ∈
      insertedAt 6 c2tcontent [c2tcit1, c2tcit2] c2tcit1.position ∧
    Block.grid c2tab.data.length (maxRowLen c2tab.data)
        (c2tab.data.map (normalizeRow (maxRowLen c2tab.data))) ∈
      insertedAt 6 c2tcontent [c2tcit1, c2tcit2] c2tcit2.position ∧
    2 ≤ (add_body_with_citations 6 c2tcontent [c2tcit1, c2tcit2]).count
      (Block.grid c2tab.data.length (maxRowLen c2tab.data)
        (c2tab.data.map (normalizeRow (maxRowLen c2tab.data)))) :=
  ⟨same_asset_inserted_at_each_position.1 6 c2content [c2cit1, c2cit2] c2cit1 c2cit2
    1 c2fig [] 10 5 (by unfold HeadingsOk; decide) (by decide) (by decide) rfl rfl
    (by decide) (by decide) (by decide) (by decide) (by decide) (by decide) rfl
    (by decide) rfl,
   same_asset_inserted_at_each_position.2 6 c2tcontent [c2tcit1, c2tcit2] c2tcit1 c2tcit2
    1 c2tab [] (by unfold HeadingsOk; decide) (by decide) (by decide) rfl rfl
    (by decide) (by decide) (by decide) (by decide) (by decide) (by decide)
    (by decide) (by decide)⟩

/-- Witness citations for the silent-skip theorem. -/
def c3figcit : Citation :=
  { type := "figure", number := "3", position := 0, context := "", match_text := "" }

def c3tabcit : Citation :=
  { type := "table", number := "3", position := 0, context := "", match_text := "" }

theorem insert_missing_asset_silent_skip_witness :
    insert_figure 6 c3content c3figcit = [] ∧
    insert_table c3content c3tabcit = [] ∧
    insert_figure 6 c3content c3cit =
      [Block.placeholderPara ("[Figure " ++ c3cit.number ++ " - insertion failed]")] :=
  ⟨insert_missing_asset_silent_skip.1 6 c3content c3figcit 3 (by decide) (by decide),
   insert_missing_asset_silent_skip.2.1 c3content c3tabcit 3 (by decide) (by decide),
   insert_missing_asset_silent_skip.2.2 6 c3content c3cit (by decide)⟩

/-- Witness fixture for placement failure: figure 1 exists but its
add_picture call fails. -/
def c4fig : Figure :=
  { number := 1, image_data := { dims := some (4, 3), addOk := false },
    caption := "cap", rel_id := "r" }

def c4content : ContentModel :=
  { title := "", authors := [], abstract := "",
    body := [{ text := "P", style := "Normal", is_heading := false }],
    references := [], figures := [c4fig], tables := [] }

def c4figcit : Citation :=
  { type := "figure", number := "1", position := 0, context := "P", match_text := "Figure 1" }

def c4tabcit : Citation :=
  { type := "table", number := "abc", position := 0, context := "", match_text := "" }

theorem insert_failure_placeholder_witness :
    Block.placeholderPara ("[Figure " ++ c4figcit.number ++ " - insertion failed]") ∈
      insert_figure 6 c4content c4figcit ∧
    insert_table c4content c4tabcit =
      [Block.placeholderPara ("[Table " ++ c4tabcit.number ++ " - insertion failed]")] ∧
    mkBodyBlock { text := "P", style := "Normal", is_heading := false } ∈
      add_body_with_citations 6 c4content [c4figcit] :=
  ⟨insert_failure_placeholder.1 6 c4content c4figcit 1 c4fig [] (by decide) (by decide) rfl,
   insert_failure_placeholder.2.1 c4content c4tabcit (by decide),
   insert_failure_placeholder.2.2 6 c4content [c4figcit] _ (by unfold HeadingsOk; decide)
     (by decide)⟩

/-- Witness fixture for the width rule: the normal path at the spec
example size 1200 by 800 and configured width 6. -/
def c5wfig : Figure :=
  { number := 1, image_data := { dims := some (1200, 800), addOk := true },
    caption := "cap", rel_id := "r" }

def c5wcontent : ContentModel :=
  { title := "", authors := [], abstract := "", body := [], references := [],
    figures := [c5wfig], tables := [] }

theorem insert_figure_width_amended_witness :
    insert_figure 6 c5wcontent c5cit =
      [Block.spacerPara, Block.image (min 6 (13 / 2)) c5wfig.image_data,
       Block.captionPara ("Figure " ++ toString (1 : Int) ++ ": " ++ c5wfig.caption),
       Block.spacerPara] ∧
    emittedHeight (min 6 (13 / 2)) c5wfig.image_data =
      some (min 6 (13 / 2) * (800 : ℚ) / (1200 : ℚ)) ∧
    min (6 : ℚ) (13 / 2) = 6 ∧
    min (6 : ℚ) (13 / 2) * (800 : ℚ) / (1200 : ℚ) = 4 := by
  have h := insert_figure_width_amended.1 6 c5wcontent c5cit 1 c5wfig [] 1200 800
    (by decide) (by decide) rfl (by decide) rfl
  have hmin : min (6 : ℚ) (13 / 2) = 6 := min_eq_left (by norm_num)
  refine ⟨h.1, h.2, hmin, ?_⟩
  rw [hmin]; norm_num

/-- Witness fixture for the numbering theorem: a readable image, a
raising image, then another readable one. -/
def c7r1 : Rel :=
  { rel_id := "rId1", target_ref := "media/image1.png",
    blob := some { dims := some (100, 50), addOk := true } }

def c7rbad : Rel :=
  { rel_id := "rId2", target_ref := "media/image2.png", blob := none }

def c7r3 : Rel :=
  { rel_id := "rId3", target_ref := "media/image3.png",
    blob := some { dims := none, addOk := true } }

theorem extract_figures_numbering_witness :
    (extract_figures [] [c7r1, c7rbad, c7r3]).map Figure.number = [1, 2] ∧
    extract_figures [] [c7r1, c7rbad, c7r3] = extract_figures [] [c7r1, c7r3] := by
  constructor
  · have h := (extract_figures_numbering [] [c7r1, c7rbad, c7r3]).1
    have hl : (extract_figures [] [c7r1, c7rbad, c7r3]).length = 2 := by decide
    rw [h, hl]; decide
  · exact (extract_figures_numbering [] [c7r1, c7rbad, c7r3]).2.2
      [c7r1] [c7r3] c7rbad (by decide) rfl

/-- Witness fixture for the title rule: a skipped empty paragraph, then
the first heuristic match. -/
def c8paras : List RawParagraph :=
  [{ text := "", runsBold := [], styleName := none },
   { text := "Title: Statin Study", runsBold := [false], styleName := some "Normal" }]

theorem extract_title_amended_witness : extract_title c8paras = "Statin Study" := by
  have h := extract_title_amended c8paras 1 (by decide) (by decide)
    (fun j hj => by
      have hz : j = 0 := Nat.lt_one_iff.mp hj
      subst hz
      intro hjl
      have he : c8paras[0] = { text := "", runsBold := [], styleName := none } := rfl
      rw [he]; decide)
    (by decide)
  rw [h]; decide

/-- Witness fixtures for non-atomic failure: a decodable and an
undecodable figure, both with failing add_picture. -/
def c9fig1 : Figure :=
  { number := 1, image_data := { dims := some (4, 3), addOk := false },
    caption := "c1", rel_id := "r1" }

def c9fig2 : Figure :=
  { number := 1, image_data := { dims := none, addOk := false },
    caption := "c2", rel_id := "r2" }

def c9content1 : ContentModel :=
  { title := "", authors := [], abstract := "", body := [], references := [],
    figures := [c9fig1], tables := [] }

def c9content2 : ContentModel :=
  { title := "", authors := [], abstract := "", body := [], references := [],
    figures := [c9fig2], tables := [] }

def c9cit : Citation :=
  { type := "figure", number := "1", position := 0, context := "", match_text := "" }

theorem insert_figure_partial_blocks_remain_witness :
    insert_figure 6 c9content1 c9cit =
      [Block.spacerPara, Block.emptyCenteredPara, Block.emptyCenteredPara,
       Block.placeholderPara ("[Figure " ++ c9cit.number ++ " - insertion failed]")] ∧
    insert_figure 6 c9content2 c9cit =
      [Block.spacerPara, Block.emptyCenteredPara,
       Block.placeholderPara ("[Figure " ++ c9cit.number ++ " - insertion failed]")] :=
  ⟨insert_figure_partial_blocks_remain.1 6 c9content1 c9cit 1 c9fig1 [] 4 3
      (by decide) (by decide) rfl (by decide) rfl,
   insert_figure_partial_blocks_remain.2 6 c9content2 c9cit 1 c9fig2 []
      (by decide) (by decide) rfl rfl⟩

/-- Witness fixture for the zero-width grid: two rows, both empty. -/
def c10table : Table := { number := 1, data := [[], []], caption := "tcap" }

def c10content : ContentModel :=
  { title := "", authors := [], abstract := "", body := [], references := [],
    figures := [], tables := [c10table] }

def c10cit : Citation :=
  { type := "table", number := "1", position := 0, context := "", match_text := "" }

theorem insert_table_zero_width_grid_witness :
    insert_table c10content c10cit =
      [Block.spacerPara,
       Block.captionPara ("Table " ++ toString (1 : Int) ++ ": " ++ c10table.caption),
       Block.spacerPara] :=
  (insert_table_zero_width_grid c10content c10cit 1 c10table []
    (by decide) (by decide) (by decide) (by decide)).1

end ManuscriptFormatter
